import Mathlib

/-!
Shallow embedding of the BusTub-style storage core found in this repository:
the LRU-K replacer (`src/buffer/lru_k_replacer.cpp`), the buffer pool manager
(`src/buffer/buffer_pool_manager.cpp`), the page guards
(`src/storage/page/page_guard.cpp`), the single-worker disk scheduler
(`src/storage/disk/disk_scheduler.cpp`), and the disk-backed extendible hash
table (`src/container/disk/hash/disk_extendible_hash_table.cpp` together with
`src/storage/page/extendible_htable_directory_page.cpp`).

C++ machine integers are embedded as `Nat` (with explicit wrap-around where a
`size_t` counter can underflow), `page_id_t`/`frame_id_t` sentinels (`-1`) are
embedded as `Int` where the code relies on them, and arrays are embedded as
total functions updated pointwise.  Fallible operations (those that can hit a
`BUSTUB_ASSERT`, which aborts the process) return `Option`.
-/

set_option autoImplicit false

namespace BusTub

/-! ### LRU-K replacer: `src/buffer/lru_k_replacer.cpp`

The node, the list+heap implementation (`LRUKImpl`) and the front-end
(`LRUKReplacer`) are translated function by function.  The C++ ring buffer
macros are

`#define QUEUE_SIZE(START, END, K) (((END) - (START) + ((K) + 1)) % ((K) + 1))`
`#define QUEUE_POS(POS, K) ((POS) % ((K) + 1))`

where `START`, `END` always lie in `[0, K]`, so the `size_t` subtraction never
wraps once rewritten as `END + (K+1) - START`. -/

/-- Embeds the C++ constant `SIZE_MAX` (64-bit `size_t`). -/
def SIZE_MAX : Nat := 2 ^ 64 - 1

/-- Embeds `constexpr size_t INF = SIZE_MAX >> 1;` from `lru_k_replacer.cpp`. -/
def INF : Nat := SIZE_MAX >>> 1

/-- Wrapping decrement of a 64-bit `size_t` counter (`--x` in C++). -/
def dec64 (n : Nat) : Nat := (n + (2 ^ 64 - 1)) % 2 ^ 64

/-- Embeds the `QUEUE_SIZE` macro. -/
def queueSize (s e k : Nat) : Nat := (e + (k + 1) - s) % (k + 1)

/-- Embeds the `QUEUE_POS` macro. -/
def queuePos (p k : Nat) : Nat := p % (k + 1)

/-- Embeds `class LRUKNode`: a ring of the last up to `k`+1 access timestamps,
the cached `k_distance_`, the `k_` parameter (also used as the validity mark:
`k_ == INF` means invalid) and the evictable flag.  The `history_` vector of
size `k`+1 is embedded as a total function, indexed modulo `k`+1 like the
`C++` ring. -/
structure LRUKNode where
  history : Nat → Nat
  start_ : Nat
  end_ : Nat
  k_ : Nat
  kDistance : Nat
  isEvictable : Bool

/-- Embeds the constructor `LRUKNode(const size_t k)`. -/
def LRUKNode.mkNew (k : Nat) : LRUKNode :=
  { history := fun _ => 0, start_ := 0, end_ := 0, k_ := k, kDistance := INF,
    isEvictable := false }

/-- Embeds `LRUKNode::Init`. -/
def LRUKNode.init (n : LRUKNode) (k : Nat) : LRUKNode :=
  { n with
    start_ := 0, end_ := 0, k_ := k, kDistance := SIZE_MAX,
    isEvictable := false }

/-- Embeds `LRUKNode::Access(timestamp)`. -/
def LRUKNode.access (n : LRUKNode) (timestamp : Nat) : LRUKNode :=
  let n := if queueSize n.start_ n.end_ n.k_ = n.k_ then
    { n with start_ := queuePos (n.start_ + 1) n.k_ } else n
  let n := { n with
             history := fun i => if i = n.end_ then timestamp else n.history i,
             end_ := queuePos (n.end_ + 1) n.k_ }
  if queueSize n.start_ n.end_ n.k_ < n.k_ then
    { n with kDistance := SIZE_MAX - n.history n.start_ }
  else
    { n with kDistance := INF - n.history n.start_ }

/-- Embeds `LRUKNode::Valid`. -/
def LRUKNode.valid (n : LRUKNode) : Bool := n.k_ ≠ INF

/-- Embeds `LRUKNode::SetInvalid`. -/
def LRUKNode.setInvalid (n : LRUKNode) : LRUKNode := { n with k_ := INF }

/-- Embeds the state of `class LRUKImpl`.  The raw heap `r_heap_` (whose cell 0
stores the heap size) is a total function; the doubly-linked FIFO list
`f_list_` is embedded as the list of frame ids from head to tail plus the
separately maintained `size_` counter; the `union Pos` in `frame_pos_map_` is
one raw machine word per frame: `0` plays the role of the null `list_ptr_`, a
frame `f` sitting in the list stores the address of its unique list node
(embedded as the nonzero token `f + 1`), and a frame in the heap stores its
`heap_pos_`.  `frame_pos_type_` is `1` for list, `0` for heap, as in the
source. -/
structure LRUKImpl where
  rHeap : Nat → Nat
  fList : List Nat
  fListSize : Nat
  posMap : Nat → Nat
  posType : Nat → Nat

/-- Embeds the constructor `LRUKImpl(node_num, node_ref)`: `r_heap_[0] = 0`,
every `Pos` is the null pointer, every type tag is `1`. -/
def LRUKImpl.mkNew : LRUKImpl :=
  { rHeap := fun _ => 0, fList := [], fListSize := 0,
    posMap := fun _ => 0, posType := fun _ => 1 }

/-- Embeds `LRUKImpl::Push2List`: append a fresh node for `f` at the tail and
record its address in `frame_pos_map_`. -/
def LRUKImpl.push2List (impl : LRUKImpl) (f : Nat) : LRUKImpl :=
  { impl with fListSize := impl.fListSize + 1,
              fList := impl.fList ++ [f],
              posMap := fun g => if g = f then f + 1 else impl.posMap g }

/-- Embeds `LRUKImpl::ListEvict`: scan the list head → tail for the first
evictable frame (returning its node, here identified by its frame id). -/
def LRUKImpl.listEvict (nodes : Nat → LRUKNode) (l : List Nat) : Option Nat :=
  l.find? fun f => (nodes f).isEvictable

/-- Embeds `LRUKImpl::RemoveFromList(node_ptr)`: `ptr` is the raw word read
from the `Pos` union; the node it points to is the unique list node of frame
`ptr - 1`.  The C++ unconditionally decrements the separate `size_` counter
and unlinks the node. -/
def LRUKImpl.removeFromList (impl : LRUKImpl) (ptr : Nat) : LRUKImpl :=
  let f := ptr - 1
  { impl with fListSize := dec64 impl.fListSize,
              fList := impl.fList.erase f,
              posMap := fun g => if g = f then 0 else impl.posMap g }

/-- Embeds the sift-up `while` loop inside `LRUKImpl::Push2Heap` (the
`new_entry` branch): starting from `cur_pos`, while the parent exists and has a
strictly smaller `k_distance_`, pull the parent down and continue from the
parent position.  Returns the updated heap, the updated position map and the
final `cur_pos` at which the caller stores `frame_id`.  The recursion is on
fuel; each step moves to the parent position `cur_pos / 2`, so any fuel of at
least `cur_pos` steps computes the loop's result. -/
def siftUpGo (nodes : Nat → LRUKNode) (f : Nat) (heap : Nat → Nat)
    (pos : Nat → Nat) (curPos : Nat) : Nat → (Nat → Nat) × (Nat → Nat) × Nat
  | 0 => (heap, pos, curPos)
  | fuel + 1 =>
    let parentPos := curPos / 2
    if parentPos = 0 then (heap, pos, curPos)
    else if (nodes f).kDistance > (nodes (heap parentPos)).kDistance then
      let p := heap parentPos
      let heap := fun i => if i = curPos then p else heap i
      let pos := fun g => if g = p then curPos else pos g
      siftUpGo nodes f heap pos parentPos fuel
    else (heap, pos, curPos)

/-- The sift-up loop with sufficient fuel. -/
def siftUp (nodes : Nat → LRUKNode) (f : Nat) (heap : Nat → Nat)
    (pos : Nat → Nat) (curPos : Nat) : (Nat → Nat) × (Nat → Nat) × Nat :=
  siftUpGo nodes f heap pos curPos curPos

/-- Embeds one execution of the body of the `while` loop in
`LRUKImpl::AmendHeap` plus its continuation, as a recursion on remaining fuel
(the loop at most descends one level of the heap per iteration, so any fuel of
at least `r_heap_[0]` steps computes the same result as the C++ loop). -/
def siftDown (nodes : Nat → LRUKNode) (heap : Nat → Nat) (pos : Nat → Nat)
    (curPos : Nat) : Nat → (Nat → Nat) × (Nat → Nat)
  | 0 => (heap, pos)
  | fuel + 1 =>
    let nextPos := curPos * 2
    if nextPos ≤ heap 0 then
      let nextPos := if nextPos < heap 0 ∧
          (nodes (heap nextPos)).kDistance < (nodes (heap (nextPos + 1))).kDistance
        then nextPos + 1 else nextPos
      let curFrame := heap curPos
      let nextFrame := heap nextPos
      if (nodes curFrame).kDistance > (nodes nextFrame).kDistance then (heap, pos)
      else
        let pos := fun g =>
          if g = curFrame then pos nextFrame
          else if g = nextFrame then pos curFrame else pos g
        let heap := fun i =>
          if i = curPos then nextFrame
          else if i = nextPos then curFrame else heap i
        siftDown nodes heap pos nextPos fuel
    else (heap, pos)

/-- Embeds `LRUKImpl::AmendHeap(pos)`. -/
def LRUKImpl.amendHeap (impl : LRUKImpl) (nodes : Nat → LRUKNode) (pos : Nat) :
    LRUKImpl :=
  let r := siftDown nodes impl.rHeap impl.posMap pos (impl.rHeap 0 + 1)
  { impl with rHeap := r.1, posMap := r.2 }

/-- Embeds `LRUKImpl::Push2Heap(frame_id, new_entry)`. -/
def LRUKImpl.push2Heap (impl : LRUKImpl) (nodes : Nat → LRUKNode) (f : Nat)
    (newEntry : Bool) : LRUKImpl :=
  if newEntry then
    let size := impl.rHeap 0 + 1
    let heap := fun i => if i = 0 then size else impl.rHeap i
    let r := siftUp nodes f heap impl.posMap size
    let heap := fun i => if i = r.2.2 then f else r.1 i
    { impl with rHeap := heap,
                posMap := fun g => if g = f then r.2.2 else r.2.1 g,
                posType := fun g => if g = f then 0 else impl.posType g }
  else
    impl.amendHeap nodes (impl.posMap f)

/-- Embeds `LRUKImpl::Push(frame_id)`. -/
def LRUKImpl.push (impl : LRUKImpl) (nodes : Nat → LRUKNode) (f : Nat) :
    LRUKImpl :=
  if impl.posType f ≠ 0 then
    if impl.posMap f = 0 then impl.push2List f
    else if (nodes f).kDistance < INF then
      (impl.removeFromList (impl.posMap f)).push2Heap nodes f true
    else impl
  else
    impl.push2Heap nodes f false

/-- Embeds one level of the bounded BFS in `LRUKImpl::HeapEvict`: the fold
mirrors the inner `for` loop over the current level queue, updating the
running maximum and collecting child positions of non-evictable nodes whose
`k_distance_` still beats the current maximum. -/
def heapEvictLevel (nodes : Nat → LRUKNode) (heap : Nat → Nat)
    (queue : List Nat) (maxDistance : Nat) (maxFrame : Int) :
    List Nat × Nat × Int :=
  queue.foldl
    (fun acc qpos =>
      let tq := acc.1
      let md := acc.2.1
      let mf := acc.2.2
      let curFrame := heap qpos
      if (nodes curFrame).isEvictable then
        if (nodes curFrame).kDistance > md then
          (tq, (nodes curFrame).kDistance, Int.ofNat curFrame)
        else (tq, md, mf)
      else
        let np := qpos * 2
        let tq := if np ≤ heap 0 ∧ (nodes (heap np)).kDistance > md then
          tq ++ [np] else tq
        let np := np + 1
        let tq := if np ≤ heap 0 ∧ (nodes (heap np)).kDistance > md then
          tq ++ [np] else tq
        (tq, md, mf))
    ([], maxDistance, maxFrame)

/-- Embeds the outer `while (queue_size > 0)` loop of `LRUKImpl::HeapEvict` as
a recursion on fuel; every level at least doubles the smallest position in the
queue, so fuel `r_heap_[0] + 1` always suffices for the loop to drain. -/
def heapEvictLoop (nodes : Nat → LRUKNode) (heap : Nat → Nat) :
    List Nat → Nat → Int → Nat → Int
  | _, _, maxFrame, 0 => maxFrame
  | queue, maxDistance, maxFrame, fuel + 1 =>
    if queue.isEmpty then maxFrame
    else
      let r := heapEvictLevel nodes heap queue maxDistance maxFrame
      heapEvictLoop nodes heap r.1 r.2.1 r.2.2 fuel

/-- Embeds `LRUKImpl::HeapEvict`: BFS from the root (position 1), returning
the selected frame or `-1` (`int32_t max_frame(-1)`). -/
def LRUKImpl.heapEvict (impl : LRUKImpl) (nodes : Nat → LRUKNode) : Int :=
  heapEvictLoop nodes impl.rHeap [1] 0 (-1) (impl.rHeap 0 + 1)

/-- Embeds `LRUKImpl::RemoveFromHeap(pos)`.  Note the write order of the C++
on the `Pos` union: the removed frame's word is first nulled
(`list_ptr_ = nullptr`) and the type tag set to list, then the last heap
element is moved into `pos` and its `heap_pos_` stored — when `pos` is the
last position these two writes hit the same union and the second one wins. -/
def LRUKImpl.removeFromHeap (impl : LRUKImpl) (nodes : Nat → LRUKNode)
    (pos : Nat) : LRUKImpl :=
  let removeFrame := impl.rHeap pos
  let impl' : LRUKImpl :=
    { impl with posType := fun g => if g = removeFrame then 1 else impl.posType g,
                posMap := fun g => if g = removeFrame then 0 else impl.posMap g }
  let curFrame := impl'.rHeap (impl'.rHeap 0)
  let impl'' : LRUKImpl :=
    { impl' with
        rHeap := fun i =>
          if i = 0 then impl'.rHeap 0 - 1
          else if i = pos then curFrame else impl'.rHeap i,
        posMap := fun g => if g = curFrame then pos else impl'.posMap g }
  impl''.amendHeap nodes pos

/-- Embeds `LRUKImpl::Pop`. -/
def LRUKImpl.pop (impl : LRUKImpl) (nodes : Nat → LRUKNode) :
    Int × LRUKImpl :=
  let evictFrame : Int := -1
  let (evictFrame, impl) :=
    if impl.fListSize > 0 then
      match LRUKImpl.listEvict nodes impl.fList with
      | some f => (Int.ofNat f, impl.removeFromList (impl.posMap f))
      | none => (evictFrame, impl)
    else (evictFrame, impl)
  if evictFrame = -1 ∧ impl.rHeap 0 > 0 then
    let e := impl.heapEvict nodes
    if e ≠ -1 then
      (e, impl.removeFromHeap nodes (impl.posMap e.toNat))
    else (e, impl)
  else (evictFrame, impl)

/-- Embeds `LRUKImpl::Remove(frame_id)`. -/
def LRUKImpl.removeImpl (impl : LRUKImpl) (nodes : Nat → LRUKNode) (f : Nat) :
    LRUKImpl :=
  if impl.posType f ≠ 0 then impl.removeFromList (impl.posMap f)
  else impl.removeFromHeap nodes (impl.posMap f)

/-- Embeds the state of `class LRUKReplacer`.  `node_ref_` of the embedded
`LRUKImpl` is a C++ reference to `node_store_`, so every `impl` operation
receives the current `nodeStore` as an argument. -/
structure LRUKReplacer where
  nodeStore : Nat → LRUKNode
  impl : LRUKImpl
  currentTimestamp : Nat
  currSize : Nat
  replacerSize : Nat
  k_ : Nat

/-- Embeds the constructor `LRUKReplacer(num_frames, k)`. -/
def LRUKReplacer.mkNew (numFrames k : Nat) : LRUKReplacer :=
  { nodeStore := fun _ => LRUKNode.mkNew k, impl := LRUKImpl.mkNew,
    currentTimestamp := 0, currSize := 0, replacerSize := numFrames, k_ := k }

/-- Embeds `LRUKReplacer::Evict(frame_id)`: returns the evicted frame (the
value stored through the out-parameter, `none` when the function returns
`false`) together with the new state. -/
def LRUKReplacer.evict (r : LRUKReplacer) : Option Nat × LRUKReplacer :=
  if r.currSize > 0 then
    let p := r.impl.pop r.nodeStore
    if p.1 ≠ -1 then
      (some p.1.toNat,
        { r with impl := p.2,
                 nodeStore := fun g =>
                   if g = p.1.toNat then (r.nodeStore g).setInvalid
                   else r.nodeStore g,
                 currSize := dec64 r.currSize })
    else (none, { r with impl := p.2 })
  else (none, r)

/-- Embeds `LRUKReplacer::RecordAccess(frame_id)`; `none` models the
`BUSTUB_ASSERT(frame_id < replacer_size_)` abort. -/
def LRUKReplacer.recordAccess (r : LRUKReplacer) (f : Nat) :
    Option LRUKReplacer :=
  if f < r.replacerSize then
    let node := r.nodeStore f
    let node := if ¬ node.valid then node.init r.k_ else node
    let ts := r.currentTimestamp + 1
    let node := node.access ts
    let store := fun g => if g = f then node else r.nodeStore g
    some { r with nodeStore := store, impl := r.impl.push store f,
                  currentTimestamp := ts }
  else none

/-- Embeds `LRUKReplacer::SetEvictable(frame_id, set_evictable)`. -/
def LRUKReplacer.setEvictable (r : LRUKReplacer) (f : Nat) (b : Bool) :
    Option LRUKReplacer :=
  if f < r.replacerSize then
    if b ≠ (r.nodeStore f).isEvictable then
      some { r with
        nodeStore := fun g =>
          if g = f then { r.nodeStore g with isEvictable := b }
          else r.nodeStore g,
        currSize := if b then r.currSize + 1 else dec64 r.currSize }
    else some r
  else none

/-- Embeds `LRUKReplacer::Remove(frame_id)`; both `BUSTUB_ASSERT`s abort
(`none`). -/
def LRUKReplacer.remove (r : LRUKReplacer) (f : Nat) : Option LRUKReplacer :=
  if f < r.replacerSize then
    if (r.nodeStore f).isEvictable then
      if (r.nodeStore f).valid then
        some { r with
          nodeStore := fun g =>
            if g = f then (r.nodeStore g).setInvalid else r.nodeStore g,
          impl := r.impl.removeImpl r.nodeStore f,
          currSize := dec64 r.currSize }
      else some r
    else none
  else none

/-- Embeds `LRUKReplacer::Size`. -/
def LRUKReplacer.size (r : LRUKReplacer) : Nat := r.currSize

/-- Operations of the replacer front-end, for running call sequences. -/
inductive ReplacerOp where
  | record (f : Nat)
  | setEvictable (f : Nat) (b : Bool)
  | evict
  | remove (f : Nat)

/-- Runs a sequence of replacer operations from a state; `none` as soon as
one operation aborts on a `BUSTUB_ASSERT`. -/
def runReplacer (r : LRUKReplacer) : List ReplacerOp → Option LRUKReplacer
  | [] => some r
  | op :: rest =>
    match op with
    | .record f => (r.recordAccess f).bind fun r => runReplacer r rest
    | .setEvictable f b => (r.setEvictable f b).bind fun r => runReplacer r rest
    | .evict => runReplacer (r.evict).2 rest
    | .remove f => (r.remove f).bind fun r => runReplacer r rest

/-- Number of frames that are tracked by the replacer (valid) and marked
evictable — what the spec calls the number of evictable valid frames. -/
def countValidEvictable (r : LRUKReplacer) : Nat :=
  (List.range r.replacerSize).countP fun f =>
    (r.nodeStore f).valid && (r.nodeStore f).isEvictable

/-- Call sequence on `LRUKReplacer(8, 2)` that first builds an eight-element
max-heap (every frame reaches its second access in heap-insertion order
0,1,2,3,4,5,6,7 while the first accesses happened in order 0,1,3,4,7,2,5,6),
then evicts frame 6 from heap position 7.  `RemoveFromHeap` moves the last
heap element (frame 7, `k_distance_` `INF - 5`) into position 7 under parent
position 3 (frame 2, `k_distance_` `INF - 6`) and only sifts down, leaving the
heap property violated. -/
def lrukHeapBugOps : List ReplacerOp :=
  [.record 0, .record 1, .record 3, .record 4, .record 7, .record 2,
   .record 5, .record 6,
   .record 0, .record 1, .record 2, .record 3, .record 4, .record 5,
   .record 6, .record 7,
   .setEvictable 6 true, .evict,
   .setEvictable 2 true, .setEvictable 7 true]

/-- The replacer state reached by `lrukHeapBugOps` (no assertion fires). -/
def lrukHeapBugState : Option LRUKReplacer :=
  runReplacer (LRUKReplacer.mkNew 8 2) lrukHeapBugOps

/-- Call sequence on `LRUKReplacer(2, 2)`: record one access on each of the
frames 0 and 1, mark both evictable, evict (which removes frame 0 but leaves
its `is_evictable_` flag set), then call `SetEvictable(0, false)` on the
already-evicted frame. -/
def lrukSizeBugOps : List ReplacerOp :=
  [.record 0, .record 1, .setEvictable 0 true, .setEvictable 1 true,
   .evict, .setEvictable 0 false]

/-- The replacer state reached by `lrukSizeBugOps` (no assertion fires). -/
def lrukSizeBugState : Option LRUKReplacer :=
  runReplacer (LRUKReplacer.mkNew 2 2) lrukSizeBugOps

/-! ### Buffer pool manager: `src/buffer/buffer_pool_manager.cpp`

The BPM state carries the frame array `pages_`, the `page_table_`, the
`free_list_`, the replacer, the page id allocator and — standing for the disk
manager behind the disk scheduler — a map from page ids to page contents.
`FlushFrame`/`ReadFrame` schedule one request and block on its future; in this
sequential embedding they are the corresponding synchronous disk update.  The
`avaliable_` busy flags and condition variables only coordinate concurrent
callers and have no effect on the sequential semantics, so they are not
carried.  `class Page` itself is declared in a header that is not part of the
sources; following the spec, a fresh frame holds `page_id = INVALID_PAGE_ID`,
`pin_count = 0`, a clear dirty bit and zeroed data. -/

/-- Embeds the `PAGE_SIZE` constant (4 KiB). -/
def PAGE_SIZE : Nat := 4096

/-- Embeds the `INVALID_PAGE_ID` sentinel. -/
def INVALID_PAGE_ID : Int := -1

/-- Embeds `class Page` (declared in a header outside the sources).
Modelled from the spec: attributes `page_id` (with `INVALID_PAGE_ID`
sentinel), `pin_count`, `is_dirty`, and `PAGE_SIZE` data bytes; the
read/write latch has no sequential effect and is not carried. -/
structure Page where
  pageId : Int
  pinCount : Nat
  isDirty : Bool
  data : Nat → Nat

/-- A frame as the BPM constructor leaves it (`new Page[pool_size]`). -/
def Page.mkNew : Page :=
  { pageId := INVALID_PAGE_ID, pinCount := 0, isDirty := false,
    data := fun _ => 0 }

/-- Lookup in the embedded `page_table_` association list. -/
def tableLookup (t : List (Int × Nat)) (pid : Int) : Option Nat :=
  (t.find? fun e => e.1 = pid).map (·.2)

/-- Embeds `page_table_.erase(pid)`. -/
def tableErase (t : List (Int × Nat)) (pid : Int) : List (Int × Nat) :=
  t.filter fun e => e.1 ≠ pid

/-- Embeds `page_table_[pid] = fid` (insert or overwrite). -/
def tableInsert (t : List (Int × Nat)) (pid : Int) (fid : Nat) :
    List (Int × Nat) :=
  tableErase t pid ++ [(pid, fid)]

/-- Embeds the state of `class BufferPoolManager`. -/
structure BufferPoolManager where
  poolSize : Nat
  pages : Nat → Page
  pageTable : List (Int × Nat)
  freeList : List Nat
  replacer : LRUKReplacer
  nextPageId : Int
  disk : Int → Nat → Nat

/-- Embeds the `BufferPoolManager(pool_size, disk_manager, replacer_k)`
constructor: all frames fresh and on the free list.  The backing in-memory
disk manager starts zero-filled. -/
def BufferPoolManager.mkNew (poolSize k : Nat) : BufferPoolManager :=
  { poolSize := poolSize, pages := fun _ => Page.mkNew, pageTable := [],
    freeList := List.range poolSize, replacer := LRUKReplacer.mkNew poolSize k,
    nextPageId := 0, disk := fun _ _ => 0 }

/-- Updates one frame of the pool. -/
def BufferPoolManager.setPage (s : BufferPoolManager) (fid : Nat) (p : Page) :
    BufferPoolManager :=
  { s with pages := fun g => if g = fid then p else s.pages g }

/-- Threads `replacer_->RecordAccess(fid)` through the BPM state (`none` on
the assertion abort). -/
def BufferPoolManager.recordAccessB (s : BufferPoolManager) (fid : Nat) :
    Option BufferPoolManager :=
  (s.replacer.recordAccess fid).map fun repl => { s with replacer := repl }

/-- Threads `replacer_->SetEvictable(fid, b)` through the BPM state. -/
def BufferPoolManager.setEvictableB (s : BufferPoolManager) (fid : Nat)
    (b : Bool) : Option BufferPoolManager :=
  (s.replacer.setEvictable fid b).map fun repl => { s with replacer := repl }

/-- Embeds `BufferPoolManager::FlushFrame(frame_id)`: schedule a write of the
frame's bytes to its current `page_id_`, wait for it, clear the dirty bit. -/
def BufferPoolManager.flushFrame (s : BufferPoolManager) (fid : Nat) :
    BufferPoolManager :=
  let p := s.pages fid
  let s := { s with disk := fun q => if q = p.pageId then p.data else s.disk q }
  s.setPage fid { p with isDirty := false }

/-- Embeds `BufferPoolManager::ReadFrame(frame_id)`: schedule a read of the
frame's current `page_id_` into the frame and wait for it. -/
def BufferPoolManager.readFrame (s : BufferPoolManager) (fid : Nat) :
    BufferPoolManager :=
  let p := s.pages fid
  s.setPage fid { p with data := s.disk p.pageId }

/-- Embeds the shared victim-selection prelude of `NewPage`/`FetchPage`: pop
the free list head, otherwise ask the replacer; `frame_id` stays `-1` when
both fail. -/
def BufferPoolManager.pickFrame (s : BufferPoolManager) :
    Int × BufferPoolManager :=
  match s.freeList with
  | f :: rest => (Int.ofNat f, { s with freeList := rest })
  | [] =>
    let e := s.replacer.evict
    match e.1 with
    | some f => (Int.ofNat f, { s with replacer := e.2 })
    | none => (-1, { s with replacer := e.2 })

/-- Embeds `BufferPoolManager::NewPage(page_id)`: the inner option is the
returned pointer (`none` for `nullptr`), paired with the allocated page id
and the frame the returned `Page*` points to. -/
def BufferPoolManager.newPage (s0 : BufferPoolManager) :
    Option (Option (Int × Nat) × BufferPoolManager) := do
  let (fidInt, s) := s0.pickFrame
  if fidInt ≥ 0 then
    let fid := fidInt.toNat
    let s := { s with pageTable := tableErase s.pageTable (s.pages fid).pageId }
    let s ← s.recordAccessB fid
    let s ← s.setEvictableB fid false
    let pid := s.nextPageId
    let s := { s with nextPageId := s.nextPageId + 1,
                      pageTable := tableInsert s.pageTable pid fid }
    let s := s.setPage fid { s.pages fid with pinCount := 1 }
    let s := if (s.pages fid).isDirty then s.flushFrame fid else s
    let s := s.setPage fid { s.pages fid with pageId := pid }
    let s := s.setPage fid { s.pages fid with data := fun _ => 0 }
    return (some (pid, fid), s)
  else
    return (none, s)

/-- Embeds `BufferPoolManager::FetchPage(page_id)`; the inner option is the
returned pointer (the frame index the `Page*` points to). -/
def BufferPoolManager.fetchPage (s0 : BufferPoolManager) (pid : Int) :
    Option (Option Nat × BufferPoolManager) := do
  match tableLookup s0.pageTable pid with
  | some fid =>
    let s := s0.setPage fid
      { s0.pages fid with pinCount := (s0.pages fid).pinCount + 1 }
    let s ← s.recordAccessB fid
    let s ← s.setEvictableB fid false
    return (some fid, s)
  | none =>
    let (fidInt, s) := s0.pickFrame
    if fidInt ≥ 0 then
      let fid := fidInt.toNat
      let s := { s with pageTable := tableErase s.pageTable (s.pages fid).pageId }
      let s := { s with pageTable := tableInsert s.pageTable pid fid }
      let s := s.setPage fid { s.pages fid with pinCount := 1 }
      let s ← s.recordAccessB fid
      let s ← s.setEvictableB fid false
      let s := if (s.pages fid).isDirty then s.flushFrame fid else s
      let s := s.setPage fid { s.pages fid with pageId := pid }
      let s := s.readFrame fid
      return (some fid, s)
    else
      return (none, s)

/-- Embeds `BufferPoolManager::UnpinPage(page_id, is_dirty)`. -/
def BufferPoolManager.unpinPage (s : BufferPoolManager) (pid : Int)
    (isDirty : Bool) : Option (Bool × BufferPoolManager) := do
  match tableLookup s.pageTable pid with
  | some fid =>
    let s := s.setPage fid
      { s.pages fid with isDirty := (s.pages fid).isDirty || isDirty }
    if (s.pages fid).pinCount > 0 then
      let s := s.setPage fid
        { s.pages fid with pinCount := (s.pages fid).pinCount - 1 }
      if (s.pages fid).pinCount = 0 then
        let s ← s.setEvictableB fid true
        return (true, s)
      else
        return (true, s)
    else
      return (false, s)
  | none => return (false, s)

/-- Embeds `BufferPoolManager::FlushPage(page_id)` (the
`BUSTUB_ASSERT(page_id != INVALID_PAGE_ID)` abort is `none`). -/
def BufferPoolManager.flushPage (s : BufferPoolManager) (pid : Int) :
    Option (Bool × BufferPoolManager) :=
  if pid = INVALID_PAGE_ID then none
  else
    match tableLookup s.pageTable pid with
    | some fid => some (true, s.flushFrame fid)
    | none => some (false, s)

/-- Embeds `BufferPoolManager::DeletePage(page_id)`. -/
def BufferPoolManager.deletePage (s : BufferPoolManager) (pid : Int) :
    Option (Bool × BufferPoolManager) := do
  match tableLookup s.pageTable pid with
  | none => return (true, s)
  | some fid =>
    if (s.pages fid).pinCount ≠ 0 then
      return (false, s)
    else
      let s := { s with pageTable := tableErase s.pageTable pid }
      let repl ← s.replacer.remove fid
      let s := { s with replacer := repl, freeList := s.freeList ++ [fid] }
      let s := if (s.pages fid).isDirty then s.flushFrame fid else s
      return (true, s)

/-! ### Page guards: `src/storage/page/page_guard.cpp`

A guard's `page_` member is a `Page *` into the BPM's frame array, embedded as
the frame index.  The latch acquire/release calls have no sequential effect
and are not carried; what matters for the claims is the `is_dirty_` flag each
guard hands to `UnpinPage` on drop. -/

/-- Embeds `class BasicPageGuard` (fields from the header, which is outside
the sources; its two-argument constructor `{bpm, page}` stores the pair and
leaves `is_dirty_ = false`). -/
structure BasicPageGuard where
  hasBpm : Bool
  page : Option Nat
  isDirty : Bool

/-- Embeds `class WritePageGuard`: a wrapper around a `BasicPageGuard`. -/
structure WritePageGuard where
  guard : BasicPageGuard

/-- Embeds `BasicPageGuard::Drop`: unpin with the guard's dirty flag, then
become inert. -/
def BasicPageGuard.drop (g : BasicPageGuard) (s : BufferPoolManager) :
    Option (BufferPoolManager × BasicPageGuard) := do
  let s ←
    match g.hasBpm, g.page with
    | true, some fid => do
      let r ← s.unpinPage (s.pages fid).pageId g.isDirty
      pure r.2
    | _, _ => pure s
  return (s, { hasBpm := false, page := none, isDirty := false })

/-- Embeds `BasicPageGuard::UpgradeWrite`: take the write latch, force
`is_dirty_ = true`, move into a `WritePageGuard`. -/
def BasicPageGuard.upgradeWrite (g : BasicPageGuard) : WritePageGuard :=
  { guard := { g with isDirty := true } }

/-- Embeds `WritePageGuard::Drop`: release the write latch, then drop the
inner guard (which unpins with the inner `is_dirty_`). -/
def WritePageGuard.drop (w : WritePageGuard) (s : BufferPoolManager) :
    Option (BufferPoolManager × WritePageGuard) := do
  let r ← w.guard.drop s
  return (r.1, { guard := r.2 })

/-- Embeds `BufferPoolManager::FetchPageWrite(page_id)`.  The two-argument
`WritePageGuard{bpm, page}` constructor lives in the header, which is outside
the sources.  Modelled from the spec: a write guard "forces `is_dirty = true`
on acquisition". -/
def BufferPoolManager.fetchPageWrite (s : BufferPoolManager) (pid : Int) :
    Option (WritePageGuard × BufferPoolManager) := do
  let r ← s.fetchPage pid
  return ({ guard := { hasBpm := true, page := r.1, isDirty := true } }, r.2)

/-- A one-frame pool whose frame 0 hosts the dirty page 5 with contents all
`7`; the frame is recorded and evictable in the replacer and the free list is
empty, so the next `NewPage`/`FetchPage` call must evict it. -/
def bpmDirtyVictim : BufferPoolManager :=
  { poolSize := 1,
    pages := fun _ =>
      { pageId := 5, pinCount := 0, isDirty := true, data := fun _ => 7 },
    pageTable := [(5, 0)],
    freeList := [],
    replacer :=
      match runReplacer (LRUKReplacer.mkNew 1 2)
        [.record 0, .setEvictable 0 true] with
      | some r => r
      | none => LRUKReplacer.mkNew 1 2,
    nextPageId := 6,
    disk := fun _ _ => 0 }

/-- The pool state after `NewPage` on `bpmDirtyVictim`. -/
def bpmDirtyVictimNew : BufferPoolManager :=
  match bpmDirtyVictim.newPage with
  | some (_, s) => s
  | none => bpmDirtyVictim

/-- The pool state after `FetchPage(9)` on `bpmDirtyVictim`. -/
def bpmDirtyVictimFetch : BufferPoolManager :=
  match bpmDirtyVictim.fetchPage 9 with
  | some (_, s) => s
  | none => bpmDirtyVictim

/-- Like `bpmDirtyVictim` but with a clean frame, for exercising
`UnpinPage` at pin count zero. -/
def bpmCleanZeroPin : BufferPoolManager :=
  { bpmDirtyVictim with
    pages := fun _ =>
      { pageId := 5, pinCount := 0, isDirty := false, data := fun _ => 7 } }

/-! ### Disk scheduler: `src/storage/disk/disk_scheduler.cpp`

`SingleThreadScheduler::StartWorkerThread` (the identical
`DiskScheduler::StartWorkerThread` appears in `disk_manager_memory.cpp`)
drains the channel in FIFO order: each non-sentinel request gets its
`WritePage`/`ReadPage` call against the disk manager, then its promise is
fulfilled with `true`; the `std::nullopt` sentinel ends the loop.  The queue
is embedded as the list of channel items in arrival order, a request's
`data_` pointer as an index naming the caller's buffer, and the worker's
behaviour as the trace of I/O and completion events it performs. -/

/-- Embeds `struct DiskRequest` (`callback_` is represented by the request's
position in the queue, which names its promise in the event trace). -/
structure DiskRequest where
  isWrite : Bool
  dataPtr : Nat
  pageId : Int

/-- Events the worker thread performs, in order: a `WritePage`/`ReadPage`
call returning for the request at queue position `idx`, or the fulfilment of
that request's promise with `true`. -/
inductive DiskEvent where
  | ioWrite (idx : Nat) (pageId : Int)
  | ioRead (idx : Nat) (pageId : Int)
  | complete (idx : Nat)
deriving DecidableEq

/-- The I/O event the worker performs for request `r` at queue position
`idx`. -/
def ioEvent (idx : Nat) (r : DiskRequest) : DiskEvent :=
  if r.isWrite then .ioWrite idx r.pageId else .ioRead idx r.pageId

/-- Embeds the loop of `SingleThreadScheduler::StartWorkerThread` over the
channel contents, producing the worker's event trace; the position counter
names each request. -/
def workerRun : List (Option DiskRequest) → Nat → List DiskEvent
  | [], _ => []
  | none :: _, _ => []
  | some r :: rest, idx =>
    ioEvent idx r :: DiskEvent.complete idx :: workerRun rest (idx + 1)

/-- Trace of a worker that drains the queue holding the scheduled requests
`reqs` followed by the destructor's `std::nullopt` sentinel. -/
def workerTrace (reqs : List DiskRequest) : List DiskEvent :=
  workerRun (reqs.map some ++ [none]) 0

/-- Disk-manager effect of one request: a write stores the caller's buffer at
the page id, a read loads the page into the caller's buffer (modelled from
the spec's `write_page`/`read_page` interface, the `DiskManager` being outside
the sources). -/
def applyRequest (st : (Int → Nat → Nat) × (Nat → Nat → Nat))
    (r : DiskRequest) : (Int → Nat → Nat) × (Nat → Nat → Nat) :=
  let disk := st.1
  let bufs := st.2
  if r.isWrite then
    (fun q => if q = r.pageId then bufs r.dataPtr else disk q, bufs)
  else
    (disk, fun b => if b = r.dataPtr then disk r.pageId else bufs b)

/-- Number of I/O events the trace performs for request `idx`. -/
def ioCount (t : List DiskEvent) (idx : Nat) : Nat :=
  t.countP fun e =>
    match e with
    | .ioWrite i _ => i = idx
    | .ioRead i _ => i = idx
    | .complete _ => false

/-- Number of completion events the trace performs for request `idx`. -/
def completeCount (t : List DiskEvent) (idx : Nat) : Nat :=
  t.countP fun e =>
    match e with
    | .complete i => i = idx
    | _ => false

/-- A concrete two-request queue: a write of buffer 0 to page 3 and a read of
page 4 into buffer 1. -/
def c7Reqs : List DiskRequest :=
  [{ isWrite := true, dataPtr := 0, pageId := 3 },
   { isWrite := false, dataPtr := 1, pageId := 4 }]

/-! ### Extendible hash table

`src/container/disk/hash/disk_extendible_hash_table.cpp` together with the
directory page `src/storage/page/extendible_htable_directory_page.cpp`.  The
header and bucket page classes live in files outside the sources and are
modelled from the spec where so marked.  The table reaches its pages through
`FetchPageWrite`/`FetchPageRead`/`NewPageGuarded` guards; in this sequential
embedding the buffer pool behind the guards is abstracted to a typed page
store (`page id → page`), page allocation always succeeds (an unbounded pool
over the in-memory disk), and the latches have no effect.  The C++ arrays of
compile-time size (`HTABLE_DIRECTORY_ARRAY_SIZE` etc.) are total functions; a
freshly allocated page is zero-filled (`NewPage` resets its frame), so a page
that was never `Init`-ed reads as the all-zero struct. -/

/-- Embeds `ExtendibleHTableDirectoryPage`: `max_depth_`, `global_depth_`,
and the `local_depths_` / `bucket_page_ids_` arrays. -/
structure HTableDirectoryPage where
  maxDepth : Nat
  globalDepth : Nat
  localDepths : Nat → Nat
  bucketPageIds : Nat → Int

/-- Embeds `ExtendibleHTableDirectoryPage::Init(max_depth)` applied to a
zero-filled page: the fields are set and the first `2^max_depth` slots of
both arrays are initialised. -/
def HTableDirectoryPage.init (maxDepth : Nat) : HTableDirectoryPage :=
  { maxDepth := maxDepth, globalDepth := 0,
    localDepths := fun _ => 0,
    bucketPageIds := fun i => if i < 2 ^ maxDepth then INVALID_PAGE_ID else 0 }

/-- Embeds `GetGlobalDepthMask` (`(1 << global_depth_) - 1`). -/
def HTableDirectoryPage.getGlobalDepthMask (d : HTableDirectoryPage) : Nat :=
  2 ^ d.globalDepth - 1

/-- Embeds `GetLocalDepth(bucket_idx)`. -/
def HTableDirectoryPage.getLocalDepth (d : HTableDirectoryPage) (idx : Nat) :
    Nat := d.localDepths idx

/-- Embeds `GetLocalDepthMask(bucket_idx)` (`(1 << GetLocalDepth(idx)) - 1`). -/
def HTableDirectoryPage.getLocalDepthMask (d : HTableDirectoryPage)
    (idx : Nat) : Nat := 2 ^ d.getLocalDepth idx - 1

/-- Embeds `HashToBucketIndex(hash)` (`hash & GetGlobalDepthMask()`, i.e. the
low `global_depth_` bits). -/
def HTableDirectoryPage.hashToBucketIndex (d : HTableDirectoryPage)
    (hash : Nat) : Nat := hash % 2 ^ d.globalDepth

/-- Embeds `GetBucketPageId(bucket_idx)`. -/
def HTableDirectoryPage.getBucketPageId (d : HTableDirectoryPage) (idx : Nat) :
    Int := d.bucketPageIds idx

/-- Embeds `SetBucketPageId(bucket_idx, page_id)` with its
`bucket_idx >= MaxSize()` guard. -/
def HTableDirectoryPage.setBucketPageId (d : HTableDirectoryPage) (idx : Nat)
    (pid : Int) : HTableDirectoryPage :=
  if idx ≥ 2 ^ d.maxDepth then d
  else { d with bucketPageIds := fun j => if j = idx then pid else d.bucketPageIds j }

/-- Embeds `SetLocalDepth(bucket_idx, local_depth)` with its bounds guard. -/
def HTableDirectoryPage.setLocalDepth (d : HTableDirectoryPage) (idx : Nat)
    (ld : Nat) : HTableDirectoryPage :=
  if idx < 2 ^ d.maxDepth then
    { d with localDepths := fun j => if j = idx then ld else d.localDepths j }
  else d

/-- Embeds `GetSplitImageIndex(bucket_idx)`
(`bucket_idx ^ (1 << GetLocalDepth(bucket_idx))`). -/
def HTableDirectoryPage.getSplitImageIndex (d : HTableDirectoryPage)
    (idx : Nat) : Nat := idx ^^^ 2 ^ d.getLocalDepth idx

/-- Embeds `IncrGlobalDepth`: when below `max_depth_` the upper half of the
next level is copied from the image of `HashToBucketIndex` (still computed
with the old depth); the depth counter is incremented in any case. -/
def HTableDirectoryPage.incrGlobalDepth (d : HTableDirectoryPage) :
    HTableDirectoryPage :=
  let d :=
    if d.globalDepth < d.maxDepth then
      { d with
        bucketPageIds := fun i =>
          if 2 ^ d.globalDepth ≤ i ∧ i < 2 ^ (d.globalDepth + 1) then
            d.bucketPageIds (d.hashToBucketIndex i)
          else d.bucketPageIds i,
        localDepths := fun i =>
          if 2 ^ d.globalDepth ≤ i ∧ i < 2 ^ (d.globalDepth + 1) then
            d.localDepths (d.hashToBucketIndex i)
          else d.localDepths i }
    else d
  { d with globalDepth := d.globalDepth + 1 }

/-- Embeds `DecrGlobalDepth`: decrement, then reset the now out-of-range
half-open slot range `[2^g, 2^(g+1))`.  (The `uint32_t` decrement would wrap
at `global_depth_ == 0`; no caller reaches that.) -/
def HTableDirectoryPage.decrGlobalDepth (d : HTableDirectoryPage) :
    HTableDirectoryPage :=
  let d := { d with globalDepth := d.globalDepth - 1 }
  { d with
    bucketPageIds := fun i =>
      if 2 ^ d.globalDepth ≤ i ∧ i < 2 ^ (d.globalDepth + 1) then INVALID_PAGE_ID
      else d.bucketPageIds i,
    localDepths := fun i =>
      if 2 ^ d.globalDepth ≤ i ∧ i < 2 ^ (d.globalDepth + 1) then 0
      else d.localDepths i }

/-- Embeds `CanShrink`: no slot of the current range has local depth equal to
the global depth. -/
def HTableDirectoryPage.canShrink (d : HTableDirectoryPage) : Bool :=
  (List.range (2 ^ d.globalDepth)).all fun i => d.getLocalDepth i ≠ d.globalDepth

/-- Embeds `Size()` (`1 << global_depth_`). -/
def HTableDirectoryPage.size (d : HTableDirectoryPage) : Nat :=
  2 ^ d.globalDepth

/-- Embeds a `for (i = 0; i < count; i++)` loop mutating the directory. -/
def forSlots (count : Nat) (body : Nat → HTableDirectoryPage → HTableDirectoryPage)
    (d : HTableDirectoryPage) : HTableDirectoryPage :=
  (List.range count).foldl (fun d i => body i d) d

/-- Membership of `x` in the arithmetic progression
`base, base + stride, …, base + (count-1)·stride` walked by the directory
rewrite loops. -/
def inStride (base stride count x : Nat) : Prop :=
  base ≤ x ∧ (x - base) % stride = 0 ∧ (x - base) / stride < count

instance (base stride count x : Nat) :
    Decidable (inStride base stride count x) := by
  unfold inStride
  exact inferInstance

/-- Embeds `IncrLocalDepth(bucket_idx)`: bump the slot's depth, then rewrite
page id and depth over the strided slots covered by
`(bucket_idx & GetLocalDepthMask(bucket_idx)) + i * (1 << old_depth)`
(the mask is taken after the bump, the stride and count before it).  Both
array writes in the loop body are unguarded in the source. -/
def HTableDirectoryPage.incrLocalDepth (d : HTableDirectoryPage) (idx : Nat) :
    HTableDirectoryPage :=
  let localDepth := d.getLocalDepth idx
  let d := { d with localDepths := fun j => if j = idx then d.localDepths j + 1
                                            else d.localDepths j }
  let count := 2 ^ (d.globalDepth - localDepth)
  let mask := d.getLocalDepthMask idx
  let stride := 2 ^ localDepth
  forSlots count
    (fun i d' =>
      let slot := idx % (mask + 1) + i * stride
      let d' := { d' with bucketPageIds := fun j =>
        if j = slot then d'.bucketPageIds idx else d'.bucketPageIds j }
      { d' with localDepths := fun j =>
        if j = slot then localDepth + 1 else d'.localDepths j })
    d

/-- Embeds `DecrLocalDepth(bucket_idx)` (a raw `uint8_t` decrement of one
slot; every caller checks the depth is positive first). -/
def HTableDirectoryPage.decrLocalDepth (d : HTableDirectoryPage) (idx : Nat) :
    HTableDirectoryPage :=
  { d with localDepths := fun j => if j = idx then d.localDepths j - 1
                                   else d.localDepths j }

/-- Embeds `ExtendibleHTableHeaderPage`.  Modelled from the spec: the class
is declared outside the sources; it holds `max_depth` and a fixed array
`directory_page_id[2^max_depth]`. -/
structure HTableHeaderPage where
  maxDepth : Nat
  directoryPageIds : Nat → Int

/-- Embeds `ExtendibleHTableHeaderPage::Init(max_depth)` on a zero-filled
page.  Modelled from the spec: entries default to `INVALID_PAGE_ID`. -/
def HTableHeaderPage.init (maxDepth : Nat) : HTableHeaderPage :=
  { maxDepth := maxDepth,
    directoryPageIds := fun i =>
      if i < 2 ^ maxDepth then INVALID_PAGE_ID else 0 }

/-- Embeds `HashToDirectoryIndex(hash)`.  Modelled from the spec:
`dir_index = hash >> (32 - header_max_depth)` on the 32-bit hash. -/
def HTableHeaderPage.hashToDirectoryIndex (h : HTableHeaderPage)
    (hash : Nat) : Nat := hash >>> (32 - h.maxDepth)

/-- Embeds `GetDirectoryPageId(directory_idx)`. -/
def HTableHeaderPage.getDirectoryPageId (h : HTableHeaderPage) (idx : Nat) :
    Int := h.directoryPageIds idx

/-- Embeds `SetDirectoryPageId(directory_idx, directory_page_id)`. -/
def HTableHeaderPage.setDirectoryPageId (h : HTableHeaderPage) (idx : Nat)
    (pid : Int) : HTableHeaderPage :=
  { h with directoryPageIds := fun j => if j = idx then pid
                                        else h.directoryPageIds j }

/-- Embeds `ExtendibleHTableBucketPage<K, V, KC>`.  Modelled from the spec:
`max_size`, `size`, and the `(key, value)` pairs packed in order; keys are
unique under the comparator. -/
structure HTableBucketPage (K V : Type) where
  maxSize : Nat
  entries : List (K × V)

/-- Embeds `Init(max_size)` on a zero-filled page.  Modelled from the spec. -/
def HTableBucketPage.init (K V : Type) (maxSize : Nat) :
    HTableBucketPage K V :=
  { maxSize := maxSize, entries := [] }

/-- Embeds `Size()`. -/
def HTableBucketPage.size {K V : Type} (b : HTableBucketPage K V) : Nat :=
  b.entries.length

/-- Embeds `IsFull()` (`size_ == max_size_`). -/
def HTableBucketPage.isFull {K V : Type} (b : HTableBucketPage K V) : Bool :=
  b.size = b.maxSize

/-- Embeds `IsEmpty()`. -/
def HTableBucketPage.isEmpty {K V : Type} (b : HTableBucketPage K V) : Bool :=
  b.size = 0

/-- Embeds `Lookup(key, value, cmp)`: the looked-up value, or `none` when the
key is absent. -/
def HTableBucketPage.lookup {K V : Type} [DecidableEq K]
    (b : HTableBucketPage K V) (key : K) : Option V :=
  (b.entries.find? fun e => e.1 = key).map (·.2)

/-- Embeds `Insert(key, value, cmp)`.  Modelled from the spec: fails on a
full bucket and on a key already present (keys stay unique); a new pair is
packed after the existing ones. -/
def HTableBucketPage.insert {K V : Type} [DecidableEq K]
    (b : HTableBucketPage K V) (key : K) (value : V) :
    Bool × HTableBucketPage K V :=
  if b.isFull || (b.lookup key).isSome then (false, b)
  else (true, { b with entries := b.entries ++ [(key, value)] })

/-- Embeds `Remove(key, cmp)`.  Modelled from the spec: remove the pair with
the given key, keeping the remaining pairs packed in order. -/
def HTableBucketPage.remove {K V : Type} [DecidableEq K]
    (b : HTableBucketPage K V) (key : K) : Bool × HTableBucketPage K V :=
  match b.entries.findIdx? (fun e => e.1 = key) with
  | some i => (true, { b with entries := b.entries.eraseIdx i })
  | none => (false, b)

/-- Embeds `KeyAt(bucket_idx)`. -/
def HTableBucketPage.keyAt {K V : Type} [Inhabited K] [Inhabited V]
    (b : HTableBucketPage K V) (i : Nat) : K :=
  (b.entries.getD i default).1

/-- Embeds `EntryAt(bucket_idx)`. -/
def HTableBucketPage.entryAt {K V : Type} [Inhabited K] [Inhabited V]
    (b : HTableBucketPage K V) (i : Nat) : K × V :=
  b.entries.getD i default

/-- Embeds `RemoveAt(bucket_idx)`. -/
def HTableBucketPage.removeAt {K V : Type} (b : HTableBucketPage K V)
    (i : Nat) : HTableBucketPage K V :=
  { b with entries := b.entries.eraseIdx i }

/-- A page of the table's page store: the typed contents the C++ reaches by
`reinterpret_cast` on the frame bytes.  `raw` is a freshly allocated,
zero-filled page. -/
inductive HTPage (K V : Type) where
  | header (h : HTableHeaderPage)
  | directory (d : HTableDirectoryPage)
  | bucket (b : HTableBucketPage K V)
  | raw

/-- Reinterpret a page as a header page; a zero-filled page reads as the
all-zero struct. -/
def asHeader {K V : Type} : HTPage K V → HTableHeaderPage
  | .header h => h
  | _ => { maxDepth := 0, directoryPageIds := fun _ => 0 }

/-- Reinterpret a page as a directory page. -/
def asDirectory {K V : Type} : HTPage K V → HTableDirectoryPage
  | .directory d => d
  | _ => { maxDepth := 0, globalDepth := 0, localDepths := fun _ => 0,
           bucketPageIds := fun _ => 0 }

/-- Reinterpret a page as a bucket page. -/
def asBucket {K V : Type} : HTPage K V → HTableBucketPage K V
  | .bucket b => b
  | _ => { maxSize := 0, entries := [] }

/-- Embeds the state of `DiskExtendibleHashTable<K, V, KC>` together with
its storage: the typed page store standing for the buffer pool plus
in-memory disk behind the page guards, the monotonic page id allocator, and
the members `header_page_id_`, `hash_fn_`, `header_max_depth_`,
`directory_max_depth_`, `bucket_max_size_`. -/
structure DiskExtendibleHashTable (K V : Type) where
  store : Int → HTPage K V
  nextPageId : Int
  headerPageId : Int
  hashFn : K → Nat
  headerMaxDepth : Nat
  directoryMaxDepth : Nat
  bucketMaxSize : Nat

namespace DiskExtendibleHashTable

variable {K V : Type} [DecidableEq K] [Inhabited K] [Inhabited V]

/-- Embeds `Hash(key)`: the `uint32_t` cast of `hash_fn_.GetHash(key)`. -/
def hashOf (s : DiskExtendibleHashTable K V) (key : K) : Nat :=
  s.hashFn key % 2 ^ 32

/-- Writes one page of the store. -/
def writePage (s : DiskExtendibleHashTable K V) (pid : Int) (p : HTPage K V) :
    DiskExtendibleHashTable K V :=
  { s with store := fun q => if q = pid then p else s.store q }

/-- Embeds `bpm_->NewPageGuarded(&pid)` over the abstracted pool: allocation
always succeeds and hands out the next monotonic page id, whose page is
zero-filled. -/
def allocPage (s : DiskExtendibleHashTable K V) :
    Int × DiskExtendibleHashTable K V :=
  (s.nextPageId, { s with nextPageId := s.nextPageId + 1 })

/-- Embeds the `DiskExtendibleHashTable` constructor: allocate the header
page and `Init` it with `header_max_depth`. -/
def mkNew (hashFn : K → Nat) (hmax dmax bmax : Nat) :
    DiskExtendibleHashTable K V :=
  let s : DiskExtendibleHashTable K V :=
    { store := fun _ => .raw, nextPageId := 0, headerPageId := 0,
      hashFn := hashFn, headerMaxDepth := hmax, directoryMaxDepth := dmax,
      bucketMaxSize := bmax }
  let (pid, s) := s.allocPage
  let s := { s with headerPageId := pid }
  s.writePage pid (.header (HTableHeaderPage.init hmax))

/-- Embeds `GetValue(key, result)`: the returned flag and the values appended
to `result` (starting from an empty vector). -/
def getValue (s : DiskExtendibleHashTable K V) (key : K) : Bool × List V :=
  let hashv := s.hashOf key
  let header := asHeader (s.store s.headerPageId)
  let directoryIndex := header.hashToDirectoryIndex hashv
  let directoryPageId := header.getDirectoryPageId directoryIndex
  if directoryPageId = INVALID_PAGE_ID then (false, [])
  else
    let directory := asDirectory (s.store directoryPageId)
    let bucketIndex := directory.hashToBucketIndex hashv
    let bucketPageId := directory.getBucketPageId bucketIndex
    if bucketPageId = INVALID_PAGE_ID then (false, [])
    else
      let bucket := asBucket (s.store bucketPageId)
      match bucket.lookup key with
      | some v => (true, [v])
      | none => (false, [])

/-- Embeds `MigrateEntries(old_bucket, new_bucket, new_bucket_idx,
local_depth_mask)`: the `for` loop runs `i` from `Size() - 1` down to `0`,
moving the entries whose hash agrees with `new_bucket_idx` on the mask (the
result of the insertion into the new bucket is ignored by the source). -/
def migrateGo (s : DiskExtendibleHashTable K V)
    (oldB newB : HTableBucketPage K V) (newIdx mask : Nat) :
    Nat → HTableBucketPage K V × HTableBucketPage K V
  | 0 => (oldB, newB)
  | i + 1 =>
    let key := oldB.keyAt i
    let (oldB, newB) :=
      if s.hashOf key &&& mask = newIdx &&& mask then
        let e := oldB.entryAt i
        let newB := (newB.insert e.1 e.2).2
        let oldB := oldB.removeAt i
        (oldB, newB)
      else (oldB, newB)
    migrateGo s oldB newB newIdx mask i

/-- Embeds `MigrateEntries` itself. -/
def migrateEntries (s : DiskExtendibleHashTable K V)
    (oldB newB : HTableBucketPage K V) (newIdx mask : Nat) :
    HTableBucketPage K V × HTableBucketPage K V :=
  migrateGo s oldB newB newIdx mask oldB.size

/-- Embeds `InsertToNewBucket(directory, bucket_idx, key, value)`; the
directory argument (a pointer into the directory page's frame) is its page
id. -/
def insertToNewBucket (s : DiskExtendibleHashTable K V) (directoryPageId : Int)
    (bucketIdx : Nat) (key : K) (value : V) :
    Bool × DiskExtendibleHashTable K V :=
  let (bucketPageId, s) := s.allocPage
  if bucketPageId = INVALID_PAGE_ID then (false, s)
  else
    let s := s.writePage bucketPageId
      (.bucket (HTableBucketPage.init K V s.bucketMaxSize))
    let directory := asDirectory (s.store directoryPageId)
    let count := 2 ^ (directory.globalDepth - 0)
    let mask := directory.getLocalDepthMask bucketIdx
    let stride := 1
    let directory := forSlots count
      (fun i d =>
        let slot := bucketIdx % (mask + 1) + i * stride
        let d := d.setLocalDepth slot 0
        d.setBucketPageId slot bucketPageId)
      directory
    let s := s.writePage directoryPageId (.directory directory)
    let bucket := asBucket (s.store bucketPageId)
    let r := bucket.insert key value
    (r.1, s.writePage bucketPageId (.bucket r.2))

/-- Embeds `InsertToNewDirectory(header, directory_idx, hash, key, value)`;
the header pointer is the header page id (the write guard on it is still
held by `Insert` on this path). -/
def insertToNewDirectory (s : DiskExtendibleHashTable K V)
    (directoryIdx : Nat) (hashv : Nat) (key : K) (value : V) :
    Bool × DiskExtendibleHashTable K V :=
  let (directoryPageId, s) := s.allocPage
  if directoryPageId = INVALID_PAGE_ID then (false, s)
  else
    let header := asHeader (s.store s.headerPageId)
    let s := s.writePage s.headerPageId
      (.header (header.setDirectoryPageId directoryIdx directoryPageId))
    let s := s.writePage directoryPageId
      (.directory (HTableDirectoryPage.init s.directoryMaxDepth))
    let directory := asDirectory (s.store directoryPageId)
    let bucketIndex := directory.hashToBucketIndex hashv
    s.insertToNewBucket directoryPageId bucketIndex key value

/-- Embeds the `while (bucket->IsFull())` split loop of `Insert`, with the
state of the loop variables `bucket` (tracked by its page id),
`bucket_index`, and the hash of the key.  The recursion is bounded by fuel:
`none` means the bound was hit, which cannot happen from a reachable state
(each iteration strictly increases the target's local depth, which stays
bounded by `directory_max_depth_`); the C++ loop itself would not terminate
in exactly those states. -/
def insertLoop (s : DiskExtendibleHashTable K V) (directoryPageId : Int)
    (bucketPageId : Int) (bucketIndex : Nat) (key : K) (value : V)
    (hashv : Nat) :
    Nat → Option (Bool × DiskExtendibleHashTable K V)
  | 0 => none
  | fuel + 1 =>
    let bucket := asBucket (s.store bucketPageId)
    if ¬ bucket.isFull then
      let r := bucket.insert key value
      some (r.1, s.writePage bucketPageId (.bucket r.2))
    else
      let directory := asDirectory (s.store directoryPageId)
      let localDepth := directory.getLocalDepth bucketIndex
      let globalDepth := directory.globalDepth
      if globalDepth = localDepth ∧ globalDepth = s.directoryMaxDepth then
        some (false, s)
      else
        let (newBucketPageId, s) := s.allocPage
        if newBucketPageId = INVALID_PAGE_ID then some (false, s)
        else
          let s := s.writePage newBucketPageId
            (.bucket (HTableBucketPage.init K V s.bucketMaxSize))
          let directory :=
            if globalDepth = localDepth then directory.incrGlobalDepth
            else directory
          let globalDepth := directory.globalDepth
          let splitBucketIdx := directory.getSplitImageIndex bucketIndex
          let oldB := asBucket (s.store bucketPageId)
          let newB := asBucket (s.store newBucketPageId)
          let m := s.migrateEntries oldB newB splitBucketIdx (2 ^ localDepth)
          let s := s.writePage bucketPageId (.bucket m.1)
          let s := s.writePage newBucketPageId (.bucket m.2)
          let directory := directory.incrLocalDepth bucketIndex
          let localDepth := directory.getLocalDepth bucketIndex
          let directory := directory.setLocalDepth splitBucketIdx localDepth
          let directory := directory.setBucketPageId splitBucketIdx newBucketPageId
          let count := 2 ^ (globalDepth - localDepth)
          let mask := directory.getLocalDepthMask splitBucketIdx
          let stride := 2 ^ localDepth
          let directory := forSlots count
            (fun i d =>
              let slot := splitBucketIdx % (mask + 1) + i * stride
              let d := d.setBucketPageId slot newBucketPageId
              d.setLocalDepth slot localDepth)
            directory
          let s := s.writePage directoryPageId (.directory directory)
          let (bucketPageId, bucketIndex) :=
            if directory.hashToBucketIndex hashv ≠ bucketIndex then
              (newBucketPageId, splitBucketIdx)
            else (bucketPageId, bucketIndex)
          insertLoop s directoryPageId bucketPageId bucketIndex key value hashv
            fuel

/-- Embeds `Insert(key, value)`.  The split loop gets fuel
`directory_max_depth_ + 2`, which a reachable state never exhausts. -/
def insert (s : DiskExtendibleHashTable K V) (key : K) (value : V) :
    Option (Bool × DiskExtendibleHashTable K V) :=
  let hashv := s.hashOf key
  let header := asHeader (s.store s.headerPageId)
  let directoryIndex := header.hashToDirectoryIndex hashv
  let directoryPageId := header.getDirectoryPageId directoryIndex
  if directoryPageId = INVALID_PAGE_ID then
    some (s.insertToNewDirectory directoryIndex hashv key value)
  else
    let directory := asDirectory (s.store directoryPageId)
    let bucketIndex := directory.hashToBucketIndex hashv
    let bucketPageId := directory.getBucketPageId bucketIndex
    if bucketPageId = INVALID_PAGE_ID then
      some (s.insertToNewBucket directoryPageId bucketIndex key value)
    else
      let bucket := asBucket (s.store bucketPageId)
      if ¬ bucket.isFull then
        let r := bucket.insert key value
        some (r.1, s.writePage bucketPageId (.bucket r.2))
      else
        s.insertLoop directoryPageId bucketPageId bucketIndex key value hashv
          (s.directoryMaxDepth + 2)

/-- Embeds the merge `while (local_depth > 0)` loop of `Remove`.  The loop
variables are `bucket` (tracked by its page id), `bucket_index` and
`local_depth`.  The two `bpm_->DeletePage` calls happen while the read guards
of both candidate buckets are still alive, so the pages are pinned and
`DeletePage` returns `false` without any state change; they are therefore
no-ops here.  Every continued iteration ends with
`local_depth = GetLocalDepth(bucket_index)` which the branch just set to one
less than the entering depth, so fuel `local_depth + 1` always lets the
recursion reproduce the C++ loop. -/
def mergeLoop (s : DiskExtendibleHashTable K V) (directoryPageId : Int)
    (bucketPageId : Int) (bucketIndex localDepth : Nat) :
    Nat → DiskExtendibleHashTable K V
  | 0 => s
  | fuel + 1 =>
    if localDepth > 0 then
      let directory := asDirectory (s.store directoryPageId)
      let mergeMask := 2 ^ (localDepth - 1)
      let globalDepth := directory.globalDepth
      let mergeBucketIndex := mergeMask ^^^ bucketIndex
      let mergeLocalDepth := directory.getLocalDepth mergeBucketIndex
      let mergeBucket := asBucket (s.store (directory.getBucketPageId mergeBucketIndex))
      let bucket := asBucket (s.store bucketPageId)
      if localDepth > 0 ∧ localDepth = mergeLocalDepth ∧
          (mergeBucket.isEmpty || bucket.isEmpty) then
        if mergeBucket.isEmpty then
          let directory := directory.decrLocalDepth bucketIndex
          let directory := directory.decrLocalDepth mergeBucketIndex
          let directory := directory.setBucketPageId mergeBucketIndex bucketPageId
          let count := 2 ^ (globalDepth - localDepth + 1)
          let mask := directory.getLocalDepthMask bucketIndex
          let stride := 2 ^ (localDepth - 1)
          let directory := forSlots count
            (fun i d =>
              let slot := bucketIndex % (mask + 1) + i * stride
              let d := d.setLocalDepth slot (d.getLocalDepth bucketIndex)
              d.setBucketPageId slot bucketPageId)
            directory
          let s := s.writePage directoryPageId (.directory directory)
          mergeLoop s directoryPageId bucketPageId bucketIndex
            (directory.getLocalDepth bucketIndex) fuel
        else
          let directory := directory.decrLocalDepth mergeBucketIndex
          let directory := directory.decrLocalDepth bucketIndex
          let directory := directory.setBucketPageId bucketIndex
            (directory.getBucketPageId mergeBucketIndex)
          let count := 2 ^ (globalDepth - mergeLocalDepth + 1)
          let mask := directory.getLocalDepthMask mergeBucketIndex
          let stride := 2 ^ (mergeLocalDepth - 1)
          let directory := forSlots count
            (fun i d =>
              let slot := mergeBucketIndex % (mask + 1) + i * stride
              let d := d.setLocalDepth slot (d.getLocalDepth mergeBucketIndex)
              d.setBucketPageId slot (d.getBucketPageId mergeBucketIndex))
            directory
          let bucketIndex := mergeBucketIndex
          let bucketPageId := directory.getBucketPageId mergeBucketIndex
          let s := s.writePage directoryPageId (.directory directory)
          mergeLoop s directoryPageId bucketPageId bucketIndex
            (directory.getLocalDepth bucketIndex) fuel
      else s
    else s

/-- Embeds the `while (directory->CanShrink()) directory->DecrGlobalDepth()`
loop of `Remove`; every iteration decrements the depth, so fuel
`global_depth + 1` always suffices for the loop to reproduce the C++
behaviour on states where the depth arithmetic does not wrap. -/
def shrinkLoop (d : HTableDirectoryPage) : Nat → HTableDirectoryPage
  | 0 => d
  | fuel + 1 =>
    if d.canShrink then shrinkLoop d.decrGlobalDepth fuel else d

/-- Embeds `Remove(key)`. -/
def remove (s : DiskExtendibleHashTable K V) (key : K) :
    Bool × DiskExtendibleHashTable K V :=
  let hashv := s.hashOf key
  let header := asHeader (s.store s.headerPageId)
  let directoryIndex := header.hashToDirectoryIndex hashv
  let directoryPageId := header.getDirectoryPageId directoryIndex
  if directoryPageId = INVALID_PAGE_ID then (false, s)
  else
    let directory := asDirectory (s.store directoryPageId)
    let bucketIndex := directory.hashToBucketIndex hashv
    let bucketPageId := directory.getBucketPageId bucketIndex
    if bucketPageId = INVALID_PAGE_ID then (false, s)
    else
      let bucket := asBucket (s.store bucketPageId)
      let r := bucket.remove key
      let s := s.writePage bucketPageId (.bucket r.2)
      if ¬ r.1 then (false, s)
      else
        let localDepth :=
          (asDirectory (s.store directoryPageId)).getLocalDepth bucketIndex
        let s := s.mergeLoop directoryPageId bucketPageId bucketIndex
          localDepth (localDepth + 1)
        let directory := asDirectory (s.store directoryPageId)
        let directory := shrinkLoop directory (directory.globalDepth + 1)
        let s := s.writePage directoryPageId (.directory directory)
        (true, s)

end DiskExtendibleHashTable

/-- States of the hash table reachable from a fresh table by any sequence of
`Insert` and `Remove` calls. -/
inductive Reachable {K V : Type} [DecidableEq K] [Inhabited K] [Inhabited V]
    (hashFn : K → Nat) (hmax dmax bmax : Nat) :
    DiskExtendibleHashTable K V → Prop where
  | init : Reachable hashFn hmax dmax bmax
      (DiskExtendibleHashTable.mkNew hashFn hmax dmax bmax)
  | insertStep {s s' : DiskExtendibleHashTable K V} {b : Bool} (k : K) (v : V) :
      Reachable hashFn hmax dmax bmax s → s.insert k v = some (b, s') →
      Reachable hashFn hmax dmax bmax s'
  | removeStep {s s' : DiskExtendibleHashTable K V} {b : Bool} (k : K) :
      Reachable hashFn hmax dmax bmax s → s.remove k = (b, s') →
      Reachable hashFn hmax dmax bmax s'

/-! ## Theorems

Helper lemmas first, then one theorem per claim (with witnesses and
counterexamples where required). -/

theorem pickFrame_state (s : BufferPoolManager) :
    (s.pickFrame).2.pages = s.pages ∧ (s.pickFrame).2.disk = s.disk ∧
    (s.pickFrame).2.pageTable = s.pageTable ∧
    (s.pickFrame).2.nextPageId = s.nextPageId := by
  unfold BufferPoolManager.pickFrame
  rcases s.freeList with _ | ⟨f, rest⟩
  · dsimp only
    rcases (s.replacer.evict).1 with _ | f <;> exact ⟨rfl, rfl, rfl, rfl⟩
  · exact ⟨rfl, rfl, rfl, rfl⟩

theorem recordAccessB_state {s t : BufferPoolManager} {f : Nat}
    (h : s.recordAccessB f = some t) :
    t.pages = s.pages ∧ t.disk = s.disk ∧ t.pageTable = s.pageTable ∧
    t.nextPageId = s.nextPageId := by
  unfold BufferPoolManager.recordAccessB at h
  rcases Option.map_eq_some'.mp h with ⟨r, _, rfl⟩
  exact ⟨rfl, rfl, rfl, rfl⟩

theorem setEvictableB_state {s t : BufferPoolManager} {f : Nat} {b : Bool}
    (h : s.setEvictableB f b = some t) :
    t.pages = s.pages ∧ t.disk = s.disk ∧ t.pageTable = s.pageTable ∧
    t.nextPageId = s.nextPageId := by
  unfold BufferPoolManager.setEvictableB at h
  rcases Option.map_eq_some'.mp h with ⟨r, _, rfl⟩
  exact ⟨rfl, rfl, rfl, rfl⟩

theorem bpm_newPage_flushes_dirty_victim (s : BufferPoolManager) (pid : Int)
    (fid : Nat) (s' : BufferPoolManager)
    (hnew : s.newPage = some (some (pid, fid), s'))
    (hdirty : (s.pages fid).isDirty = true) :
    s'.disk (s.pages fid).pageId = (s.pages fid).data ∧
    (s'.pages fid).pageId = pid ∧ ((s'.pages fid).data = fun _ => 0) := by
  unfold BufferPoolManager.newPage at hnew
  rcases hp : s.pickFrame with ⟨fidInt, s₁⟩
  have hs₁ : s₁ = (s.pickFrame).2 := by rw [hp]
  obtain ⟨hpg₁, hdk₁, -, -⟩ := pickFrame_state s
  rw [← hs₁] at hpg₁ hdk₁
  rw [hp] at hnew
  by_cases hge : fidInt ≥ 0
  · simp only [hge, if_pos] at hnew
    simp only [bind, Option.bind_eq_some] at hnew
    obtain ⟨s₂, h₂, hnew⟩ := hnew
    obtain ⟨s₃, h₃, hnew⟩ := hnew
    obtain ⟨hpg₂, hdk₂, -, -⟩ := recordAccessB_state h₂
    obtain ⟨hpg₃, hdk₃, -, -⟩ := setEvictableB_state h₃
    simp only [pure, Option.some.injEq, Prod.mk.injEq] at hnew
    obtain ⟨⟨hpid, hfid⟩, hs⟩ := hnew
    subst hs
    subst hfid
    have hpages : s₃.pages = s.pages := by rw [hpg₃, hpg₂]; exact hpg₁
    have hdisk : s₃.disk = s.disk := by rw [hdk₃, hdk₂]; exact hdk₁
    refine ⟨?_, ?_, ?_⟩
    · simp [BufferPoolManager.setPage, BufferPoolManager.flushFrame, hpages,
        hdisk, hdirty]
    · simp [BufferPoolManager.setPage, BufferPoolManager.flushFrame, hpages,
        hdirty]
      exact hpid
    · simp [BufferPoolManager.setPage, BufferPoolManager.flushFrame, hpages,
        hdirty]
  · simp only [ge_iff_le, hge, if_neg, if_false] at hnew
    simp [pure] at hnew

theorem bpm_fetchPage_flushes_dirty_victim (s : BufferPoolManager)
    (pidArg : Int) (fid : Nat) (s' : BufferPoolManager)
    (hmiss : tableLookup s.pageTable pidArg = none)
    (hf : s.fetchPage pidArg = some (some fid, s'))
    (hdirty : (s.pages fid).isDirty = true) :
    s'.disk (s.pages fid).pageId = (s.pages fid).data ∧
    (s'.pages fid).pageId = pidArg ∧
    (s'.pages fid).data = s'.disk pidArg := by
  unfold BufferPoolManager.fetchPage at hf
  rw [hmiss] at hf
  rcases hp : s.pickFrame with ⟨fidInt, s₁⟩
  have hs₁ : s₁ = (s.pickFrame).2 := by rw [hp]
  obtain ⟨hpg₁, hdk₁, -, -⟩ := pickFrame_state s
  rw [← hs₁] at hpg₁ hdk₁
  rw [hp] at hf
  by_cases hge : fidInt ≥ 0
  · simp only [hge, if_pos] at hf
    simp only [bind, Option.bind_eq_some] at hf
    obtain ⟨s₂, h₂, hf⟩ := hf
    obtain ⟨s₃, h₃, hf⟩ := hf
    obtain ⟨hpg₂, hdk₂, -, -⟩ := recordAccessB_state h₂
    obtain ⟨hpg₃, hdk₃, -, -⟩ := setEvictableB_state h₃
    simp only [pure, Option.some.injEq, Prod.mk.injEq] at hf
    obtain ⟨hfid, hs⟩ := hf
    subst hs
    subst hfid
    have hpfid : s₃.pages fidInt.toNat =
        { s.pages fidInt.toNat with pinCount := 1 } := by
      rw [hpg₃, hpg₂]
      simp [BufferPoolManager.setPage, hpg₁]
    have hdk : s₃.disk = s.disk := by rw [hdk₃, hdk₂]; exact hdk₁
    have hdirty₃ : (s₃.pages fidInt.toNat).isDirty = true := by
      rw [hpfid]; exact hdirty
    refine ⟨?_, ?_, ?_⟩
    · simp [BufferPoolManager.setPage, BufferPoolManager.flushFrame,
        BufferPoolManager.readFrame, hdirty₃, hdirty, hpfid, hdk]
    · simp [BufferPoolManager.setPage, BufferPoolManager.flushFrame,
        BufferPoolManager.readFrame, hdirty₃, hdirty]
    · simp [BufferPoolManager.setPage, BufferPoolManager.flushFrame,
        BufferPoolManager.readFrame, hdirty₃, hdirty]
  · simp only [ge_iff_le, hge, if_neg, if_false] at hf
    simp [pure] at hf

/-- Claim C1: every `NewPage` or `FetchPage` call that reuses a victim frame
whose dirty bit is set writes the frame's old contents (via the scheduler,
waiting for completion — synchronous here) to the victim's old page id,
before the frame's `page_id_` and contents are replaced by the new page: in
the resulting state the disk holds the old bytes at the old page id while the
frame holds the new page id with reset (`NewPage`) or freshly read
(`FetchPage`) contents. -/
theorem c1_dirty_victim_written_back :
    (∀ (s : BufferPoolManager) (pid : Int) (fid : Nat)
      (s' : BufferPoolManager), s.newPage = some (some (pid, fid), s') →
      (s.pages fid).isDirty = true →
      s'.disk (s.pages fid).pageId = (s.pages fid).data ∧
      (s'.pages fid).pageId = pid ∧ ((s'.pages fid).data = fun _ => 0)) ∧
    (∀ (s : BufferPoolManager) (pid : Int) (fid : Nat)
      (s' : BufferPoolManager), tableLookup s.pageTable pid = none →
      s.fetchPage pid = some (some fid, s') →
      (s.pages fid).isDirty = true →
      s'.disk (s.pages fid).pageId = (s.pages fid).data ∧
      (s'.pages fid).pageId = pid ∧
      (s'.pages fid).data = s'.disk pid) :=
  ⟨bpm_newPage_flushes_dirty_victim, bpm_fetchPage_flushes_dirty_victim⟩

/-- Witness for C1 on the concrete one-frame pool `bpmDirtyVictim` whose
victim frame holds dirty page 5 with bytes all 7: after `NewPage` (page 6)
and after `FetchPage(9)` the disk holds the old bytes at page 5 and the frame
hosts the new page. -/
theorem c1_dirty_victim_written_back_witness :
    (bpmDirtyVictimNew.disk (bpmDirtyVictim.pages 0).pageId =
        (bpmDirtyVictim.pages 0).data ∧
      (bpmDirtyVictimNew.pages 0).pageId = 6 ∧
      ((bpmDirtyVictimNew.pages 0).data = fun _ => 0)) ∧
    (bpmDirtyVictimFetch.disk (bpmDirtyVictim.pages 0).pageId =
        (bpmDirtyVictim.pages 0).data ∧
      (bpmDirtyVictimFetch.pages 0).pageId = 9 ∧
      (bpmDirtyVictimFetch.pages 0).data = bpmDirtyVictimFetch.disk 9) :=
  ⟨c1_dirty_victim_written_back.1 bpmDirtyVictim 6 0 bpmDirtyVictimNew rfl rfl,
   c1_dirty_victim_written_back.2 bpmDirtyVictim 9 0 bpmDirtyVictimFetch rfl
     rfl rfl⟩

/-- Claim C2, failing input: after `lrukHeapBugOps` on `LRUKReplacer(8, 2)`,
`Evict` returns frame 2 even though frame 7 is also evictable, has a full
history of `k = 2` recorded accesses (`queueSize ... = 2`), and has the
strictly larger cached `k_distance_` (the code caches `INF - t` where `t` is
the k-th most recent access timestamp, so a larger cache means an older k-th
access, i.e. a larger backward k-distance).  The spec demands the frame with
maximum backward k-distance, i.e. frame 7. -/
theorem c2_evict_skips_larger_distance :
    (lrukHeapBugState.map fun r =>
      (r.evict.1, (r.nodeStore 2).isEvictable, (r.nodeStore 7).isEvictable,
        queueSize (r.nodeStore 2).start_ (r.nodeStore 2).end_ (r.nodeStore 2).k_,
        queueSize (r.nodeStore 7).start_ (r.nodeStore 7).end_ (r.nodeStore 7).k_,
        decide ((r.nodeStore 2).kDistance < (r.nodeStore 7).kDistance))) =
      some (some 2, true, true, 2, 2, true) := by
  rfl

/-- Claim C8, failing input: after `lrukSizeBugOps` (evict frame 0, then
`SetEvictable(0, false)` on the evicted frame) the replacer reports
`Size() = 0` although one valid frame (frame 1) is still marked evictable. -/
theorem c8_size_diverges_from_evictable_count :
    (lrukSizeBugState.map fun r => (r.size, countValidEvictable r)) =
      some (0, 1) := by
  rfl

/-- Claim C9: `UnpinPage` on a resident page whose pin count is already zero
returns `false` but still ORs the `is_dirty` argument into the frame's dirty
bit; the resulting state differs from the input exactly by that OR. -/
theorem c9_unpin_at_zero_still_sets_dirty (s : BufferPoolManager) (pid : Int)
    (fid : Nat) (d : Bool)
    (hfid : tableLookup s.pageTable pid = some fid)
    (hpin : (s.pages fid).pinCount = 0) :
    s.unpinPage pid d =
      some (false, s.setPage fid
        { s.pages fid with isDirty := (s.pages fid).isDirty || d }) := by
  unfold BufferPoolManager.unpinPage
  rw [hfid]
  simp [BufferPoolManager.setPage, hpin]

/-- Witness for C9 on `bpmCleanZeroPin`: unpinning resident page 5 (pin count
zero, clean) with `is_dirty = true` returns `false` and turns the frame
dirty. -/
theorem c9_unpin_at_zero_still_sets_dirty_witness :
    bpmCleanZeroPin.unpinPage 5 true =
      some (false, bpmCleanZeroPin.setPage 0
        { bpmCleanZeroPin.pages 0 with
          isDirty := (bpmCleanZeroPin.pages 0).isDirty || true }) :=
  c9_unpin_at_zero_still_sets_dirty bpmCleanZeroPin 5 0 true rfl rfl

/-- Claim C10: every successful `NewPage` call returns a frame whose
`PAGE_SIZE` data bytes have been reset to zero. -/
theorem c10_newPage_returns_zeroed_frame (s : BufferPoolManager) (pid : Int)
    (fid : Nat) (s' : BufferPoolManager)
    (hnew : s.newPage = some (some (pid, fid), s')) :
    ∀ i, i < PAGE_SIZE → (s'.pages fid).data i = 0 := by
  unfold BufferPoolManager.newPage at hnew
  rcases hp : s.pickFrame with ⟨fidInt, s₁⟩
  rw [hp] at hnew
  by_cases hge : fidInt ≥ 0
  · simp only [hge, if_pos] at hnew
    simp only [bind, Option.bind_eq_some] at hnew
    obtain ⟨s₂, h₂, hnew⟩ := hnew
    obtain ⟨s₃, h₃, hnew⟩ := hnew
    simp only [pure, Option.some.injEq, Prod.mk.injEq] at hnew
    obtain ⟨⟨hpid, hfid⟩, hs⟩ := hnew
    subst hs
    subst hfid
    intro i _
    simp [BufferPoolManager.setPage]
  · simp only [ge_iff_le, hge, if_neg, if_false] at hnew
    simp [pure] at hnew

/-- Witness for C10: `NewPage` on `bpmDirtyVictim` (whose frame previously
held bytes all 7) hands back a frame whose first and last data bytes are
zero. -/
theorem c10_newPage_returns_zeroed_frame_witness :
    (bpmDirtyVictimNew.pages 0).data 0 = 0 ∧
    (bpmDirtyVictimNew.pages 0).data 4095 = 0 :=
  ⟨c10_newPage_returns_zeroed_frame bpmDirtyVictim 6 0 bpmDirtyVictimNew rfl
     0 (by decide),
   c10_newPage_returns_zeroed_frame bpmDirtyVictim 6 0 bpmDirtyVictimNew rfl
     4095 (by decide)⟩

theorem ioEvent_ne_complete (idx m : Nat) (r : DiskRequest) :
    ioEvent idx r ≠ DiskEvent.complete m := by
  unfold ioEvent
  cases r.isWrite <;> simp

theorem ioEvent_inj_idx {idx m : Nat} {r q : DiskRequest}
    (h : ioEvent idx r = ioEvent m q) : idx = m := by
  unfold ioEvent at h
  cases hr : r.isWrite <;> cases hq : q.isWrite <;> rw [hr, hq] at h <;>
    simp at h <;> tauto

theorem workerRun_count_lt (l : List (Option DiskRequest)) :
    ∀ (n idx : Nat), idx < n →
    ioCount (workerRun l n) idx = 0 ∧ completeCount (workerRun l n) idx = 0 := by
  induction l with
  | nil => intro n idx _; simp [workerRun, ioCount, completeCount]
  | cons o t ih =>
    intro n idx hlt
    rcases o with _ | r
    · simp [workerRun, ioCount, completeCount]
    · have := ih (n + 1) idx (by omega)
      unfold workerRun ioCount completeCount
      rw [List.countP_cons, List.countP_cons, List.countP_cons, List.countP_cons]
      unfold ioCount completeCount at this
      have hne : ¬ n = idx := by omega
      unfold ioEvent
      cases r.isWrite <;> simp [this.1, this.2, hne]

theorem workerRun_spec (l : List DiskRequest) :
    ∀ (n i : Nat) (h : i < l.length),
    ioCount (workerRun (l.map some ++ [none]) n) (n + i) = 1 ∧
    completeCount (workerRun (l.map some ++ [none]) n) (n + i) = 1 ∧
    (workerRun (l.map some ++ [none]) n).indexOf (DiskEvent.complete (n + i)) =
      (workerRun (l.map some ++ [none]) n).indexOf
        (ioEvent (n + i) (l.get ⟨i, h⟩)) + 1 := by
  induction l with
  | nil => intro n i h; simp at h
  | cons r t ih =>
    intro n i h
    have hrun : workerRun ((r :: t).map some ++ [none]) n =
        ioEvent n r :: DiskEvent.complete n ::
          workerRun (t.map some ++ [none]) (n + 1) := by
      simp [workerRun]
    rw [hrun]
    rcases i with _ | i
    · obtain ⟨hc1, hc2⟩ := workerRun_count_lt (t.map some ++ [none]) (n + 1) n
        (by omega)
      refine ⟨?_, ?_, ?_⟩
      · unfold ioCount at hc1 ⊢
        rw [List.countP_cons, List.countP_cons]
        unfold ioEvent
        cases r.isWrite <;> simp [hc1]
      · unfold completeCount at hc2 ⊢
        rw [List.countP_cons, List.countP_cons]
        unfold ioEvent
        cases r.isWrite <;> simp [hc2]
      · have hg : (r :: t).get ⟨0, h⟩ = r := rfl
        rw [hg, Nat.add_zero]
        rw [List.indexOf_cons_ne _ (ioEvent_ne_complete n n r),
            List.indexOf_cons_self, List.indexOf_cons_self]
    · have h' : i < t.length := by simpa using h
      obtain ⟨ih1, ih2, ih3⟩ := ih (n + 1) i h'
      have harith : n + 1 + i = n + (i + 1) := by omega
      rw [harith] at ih1 ih2 ih3
      have hg : (r :: t).get ⟨i + 1, h⟩ = t.get ⟨i, h'⟩ := rfl
      rw [hg]
      have hne1 : ioEvent n r ≠ ioEvent (n + (i + 1)) (t.get ⟨i, h'⟩) := by
        intro heq
        have := ioEvent_inj_idx heq
        omega
      have hne2 : ioEvent n r ≠ DiskEvent.complete (n + (i + 1)) :=
        ioEvent_ne_complete _ _ _
      have hne3 : DiskEvent.complete n ≠ ioEvent (n + (i + 1)) (t.get ⟨i, h'⟩) := by
        intro heq
        exact (ioEvent_ne_complete _ _ _) heq.symm
      have hne4 : DiskEvent.complete n ≠ DiskEvent.complete (n + (i + 1)) := by
        intro heq
        simp at heq
      refine ⟨?_, ?_, ?_⟩
      · unfold ioCount at ih1 ⊢
        rw [List.countP_cons, List.countP_cons]
        unfold ioEvent
        have hne : ¬ n = n + (i + 1) := by omega
        cases r.isWrite <;> simp [ih1, hne]
      · unfold completeCount at ih2 ⊢
        rw [List.countP_cons, List.countP_cons]
        unfold ioEvent
        have hne : ¬ n = n + (i + 1) := by omega
        cases r.isWrite <;> simp [ih2, hne]
      · rw [List.indexOf_cons_ne _ hne2, List.indexOf_cons_ne _ hne4,
            List.indexOf_cons_ne _ hne1, List.indexOf_cons_ne _ hne3, ih3]

/-- Claim C7: for every sequence of scheduled requests, the worker loop
performs each request's read or write against the disk manager exactly once,
and fulfils the request's completion promise only after the corresponding
`ReadPage`/`WritePage` call has returned: in the worker's event trace every
scheduled request has exactly one I/O event and exactly one completion
event, and the completion sits immediately after that I/O event. -/
theorem c7_worker_exactly_once_then_complete (reqs : List DiskRequest)
    (i : Nat) (h : i < reqs.length) :
    ioCount (workerTrace reqs) i = 1 ∧
    completeCount (workerTrace reqs) i = 1 ∧
    (workerTrace reqs).indexOf (DiskEvent.complete i) =
      (workerTrace reqs).indexOf (ioEvent i (reqs.get ⟨i, h⟩)) + 1 := by
  have := workerRun_spec reqs 0 i h
  simpa [workerTrace] using this

/-- Witness for C7 at the concrete queue `c7Reqs` and its second request. -/
theorem c7_worker_exactly_once_then_complete_witness :
    ioCount (workerTrace c7Reqs) 1 = 1 ∧
    completeCount (workerTrace c7Reqs) 1 = 1 ∧
    (workerTrace c7Reqs).indexOf (DiskEvent.complete 1) =
      (workerTrace c7Reqs).indexOf
        (ioEvent 1 (c7Reqs.get ⟨1, by decide⟩)) + 1 :=
  c7_worker_exactly_once_then_complete c7Reqs 1 (by decide)

/-- Claim C4: every write page guard, whether acquired by `FetchPageWrite` or
by upgrading a basic guard, has its `is_dirty_` flag forced to `true` at
acquisition, and dropping a write guard unpins the page with
`is_dirty = true`. -/
theorem c4_write_guard_forces_dirty :
    (∀ g : BasicPageGuard, (g.upgradeWrite).guard.isDirty = true) ∧
    (∀ (s : BufferPoolManager) (pid : Int) (w : WritePageGuard)
      (s' : BufferPoolManager), s.fetchPageWrite pid = some (w, s') →
      w.guard.isDirty = true) ∧
    (∀ (w : WritePageGuard) (s : BufferPoolManager) (fid : Nat),
      w.guard.hasBpm = true → w.guard.page = some fid →
      w.guard.isDirty = true →
      w.drop s = (s.unpinPage (s.pages fid).pageId true).map
        (fun r => (r.2, { guard :=
          { hasBpm := false, page := none, isDirty := false } }))) := by
  refine ⟨fun g => rfl, ?_, ?_⟩
  · intro s pid w s' h
    unfold BufferPoolManager.fetchPageWrite at h
    simp only [bind, Option.bind_eq_some] at h
    obtain ⟨r, hr, h⟩ := h
    simp only [pure, Option.some.injEq, Prod.mk.injEq] at h
    obtain ⟨hw, -⟩ := h
    rw [← hw]
  · intro w s fid hb hp hd
    unfold WritePageGuard.drop BasicPageGuard.drop
    rw [hb, hp, hd]
    simp only [bind, Option.map_eq_bind]
    cases hu : s.unpinPage (s.pages fid).pageId true <;> simp [hu]

/-- Witness for C4: a concrete basic guard on frame 0 upgrades to a dirty
write guard, `FetchPageWrite(9)` on the concrete pool hands out a dirty write
guard, and dropping that guard performs `UnpinPage(.., true)`. -/
theorem c4_write_guard_forces_dirty_witness :
    ((BasicPageGuard.mk true (some 0) false).upgradeWrite).guard.isDirty =
      true ∧
    (WritePageGuard.mk { hasBpm := true, page := some 0, isDirty := true
      }).guard.isDirty = true ∧
    (WritePageGuard.mk { hasBpm := true, page := some 0, isDirty := true
      }).drop bpmCleanZeroPin =
      ((bpmCleanZeroPin.unpinPage (bpmCleanZeroPin.pages 0).pageId true).map
        (fun r => (r.2, { guard :=
          { hasBpm := false, page := none, isDirty := false } }))) :=
  ⟨c4_write_guard_forces_dirty.1 (BasicPageGuard.mk true (some 0) false),
   c4_write_guard_forces_dirty.2.1 bpmDirtyVictim 9
     (WritePageGuard.mk { hasBpm := true, page := some 0, isDirty := true })
     bpmDirtyVictimFetch rfl,
   c4_write_guard_forces_dirty.2.2
     (WritePageGuard.mk { hasBpm := true, page := some 0, isDirty := true })
     bpmCleanZeroPin 0 rfl rfl rfl⟩

end BusTub
